import Mathlib

/-!
Verification development for the event-streaming core of the gateway.

The definitions below are a shallow embedding of the Python source:

* `backend/common/type/constant.py` — `CurrentState`
* `backend/common/type/sse.py` — `EventStreamSseEvent`
* `backend/common/type/thread.py` — `ThreadStatus`, `ThreadMetadata`
* `backend/common/type/agent.py` — `AgentExecuteData`
* `backend/gateway/service/agent_event_stream_service.py` —
  `SseEventMessage`, `StreamConfig`, `TimeoutManager`,
  `RedisStreamReader.fetch_messages`, the keep-alive / timeout-checker /
  redis-listener tasks and the main yield loop of `stream_sse_events`
* `backend/gateway/controller/agent_thread_controller.py` — the
  thread-mode `stream_generator` (list + pubsub variant)
* `backend/workflow/service/client_message_service.py` —
  `ClientMessageService.publish_to_thread`
* `backend/gateway/service/agent_thread_service.py` —
  `AgentThreadService.validate_thread`

Machine times (`arrow.utcnow()`) are modelled as `Nat` seconds where only
durations matter, and as opaque `String` timestamps where only the stored
value matters.  Redis stream IDs (`ms-seq` pairs, totally ordered and
server-assigned monotonic) are modelled as `Nat`.  JSON serialization of a
payload is carried as an opaque `String` field alongside the parsed fields
the code actually inspects.
-/

namespace EventStream

/-- States of `CurrentState` in `backend/common/type/constant.py`. -/
inductive CurrentState where
  | init
  | processing
  | interrupt
  | complete
  | error
deriving DecidableEq, Repr

/-- Enum `EventStreamSseEvent` in `backend/common/type/sse.py`. -/
inductive EventStreamSseEvent where
  | task_agent_execute
  | error
  | waiting
  | keep_alive
deriving DecidableEq, Repr

/-- String value of each `EventStreamSseEvent` member (`str, Enum` values). -/
def EventStreamSseEvent.value : EventStreamSseEvent → String
  | .task_agent_execute => "task_agent_execute"
  | .error => "error"
  | .waiting => "waiting"
  | .keep_alive => "keep_alive"

/-- Model of `SseEventMessage` (agent_event_stream_service.py, lines 71-99).
`event_type` is `EventStreamSseEvent | str` in the source, embedded as a sum.
The `data` payload is kept in two views: `dataJson`, the JSON string that
`format_as_sse` puts on the wire (`model_dump_json` / `json.dumps` output),
and `dataCurrentState`, the parsed `current_state` field inside the payload
when present (the source never reads it; the claims of the spec refer to it). -/
structure SseEventMessage where
  event_type : EventStreamSseEvent ⊕ String
  dataJson : String
  dataCurrentState : Option CurrentState
deriving DecidableEq, Repr

/-- Model of `SseEventMessage.format_as_sse` (lines 76-86): both branches
produce `event: <type>\ndata: <json>\n\n`, with the enum branch using
`self.event_type.value`. -/
def SseEventMessage.format_as_sse (m : SseEventMessage) : String :=
  match m.event_type with
  | .inl e => "event: " ++ e.value ++ "\ndata: " ++ m.dataJson ++ "\n\n"
  | .inr s => "event: " ++ s ++ "\ndata: " ++ m.dataJson ++ "\n\n"

/-- Model of Python `str.lower()` as per-character lowering.  The
type-strings the gateway compares are ASCII, where the Unicode-aware Python
lowering and the per-character ASCII lowering agree. -/
def strLower (s : String) : String :=
  ⟨s.data.map Char.toLower⟩

/-- The list `system_events` in `is_business_message` (line 98). -/
def systemEventStrings : List String :=
  ["waiting", "keep_alive", "error", "ping", "heartbeat"]

/-- Model of `SseEventMessage.is_business_message` (lines 88-99): enum-typed
events are business unless WAITING / KEEP_ALIVE / ERROR; string-typed events
are business unless their lower-cased value is in `systemEventStrings`. -/
def SseEventMessage.is_business_message (m : SseEventMessage) : Bool :=
  match m.event_type with
  | .inl e =>
      !(e == EventStreamSseEvent.waiting || e == EventStreamSseEvent.keep_alive ||
        e == EventStreamSseEvent.error)
  | .inr s => !(systemEventStrings.contains (strLower s))

/-! Publisher side: `ClientMessageService.publish_to_thread`
(backend/workflow/service/client_message_service.py, lines 33-105). -/

/-- Model of `AgentExecuteData` (backend/common/type/agent.py, lines 165-184).
`execute_type` is kept as its string enum value and `execute_result` as an
opaque serialized payload; neither is inspected by the publish path. -/
structure AgentExecuteData where
  uuid : String
  create_at : Option String
  modify_at : Option String
  current_state : CurrentState
  execute_start_at : Option String
  execute_end_at : Option String
  error_flag : Bool
  execute_type : String
  execute_result : Option String
deriving DecidableEq, Repr

/-- Model of the `message_data` dict built in `publish_to_thread`
(lines 61-66): `{"type": "task_agent_execute", "uuid": data.uuid,
"data": data.model_dump(exclude_none=True), "timestamp": now}`. -/
structure ThreadMessage where
  type : String
  uuid : String
  data : AgentExecuteData
  timestamp : String
deriving DecidableEq, Repr

/-- Entry stored in the Redis list `agent_run:<thread>:responses`.  Entries
are JSON strings in the store; the UUID scan `json.loads` each one and skips
entries that fail to decode (lines 72-79), so an entry is modelled as either
a decodable `ThreadMessage` or opaque junk. -/
inductive RedisListEntry where
  | msg (m : ThreadMessage)
  | junk (raw : String)
deriving DecidableEq, Repr

/-- UUID of a stored entry when it decodes (`existing_data.get("uuid")`). -/
def RedisListEntry.uuidOf : RedisListEntry → Option String
  | .msg m => some m.uuid
  | .junk _ => none

/-- The scan of lines 68-79: first index whose decoded `uuid` equals `u`,
skipping undecodable entries; `none` models the sentinel `-1`. -/
def uuidIndex (log : List RedisListEntry) (u : String) : Option Nat :=
  match log with
  | [] => none
  | e :: rest =>
    if e.uuidOf = some u then some 0
    else (uuidIndex rest u).map (· + 1)

/-- Timestamp mutation at the top of `publish_to_thread` (lines 44-53):
`create_at` and `modify_at` are each set to `now` only when `None`, and
`execute_end_at` is set to `now` when the state is terminal and it is unset. -/
def fillTimestamps (data : AgentExecuteData) (now : String) : AgentExecuteData :=
  let data := if data.create_at = none then { data with create_at := some now } else data
  let data := if data.modify_at = none then { data with modify_at := some now } else data
  if (data.current_state = CurrentState.complete ∨ data.current_state = CurrentState.error) ∧
      data.execute_end_at = none then
    { data with execute_end_at := some now }
  else data

/-- Result of `publish_to_thread`: the list after the write, the event object of the caller after the timestamp mutation, and the numeric value of the
returned index string. -/
structure PublishResult where
  log : List RedisListEntry
  data : AgentExecuteData
  index : Nat
deriving Repr

/-- Model of `ClientMessageService.publish_to_thread` (lines 33-105) on the
per-thread response list: fill timestamps, build `message_data`, scan for an
entry with the same UUID; on a hit `LSET` that index in place, otherwise
`RPUSH` and return `LLEN - 1`.  (The TTL refresh and the pubsub notify do not
touch the list and are not modelled.) -/
def publish_to_thread (log : List RedisListEntry) (data : AgentExecuteData)
    (now : String) : PublishResult :=
  let data := fillTimestamps data now
  let entry := RedisListEntry.msg ⟨"task_agent_execute", data.uuid, data, now⟩
  match uuidIndex log data.uuid with
  | some i => ⟨log.set i entry, data, i⟩
  | none => ⟨log ++ [entry], data, log.length⟩

/-! Stream-variant reader: `RedisStreamReader.fetch_messages`
(agent_event_stream_service.py, lines 233-302).  Stream IDs are modelled as
`Nat` (Redis `ms-seq` IDs are totally ordered, so collapsing the pair loses
nothing the code relies on); `STREAM_START_ID = "0-0"` is modelled as `0`. -/

/-- The constant `StreamConfig.STREAM_START_ID` (line 127). -/
def STREAM_START_ID : Nat := 0

/-- Dedup step of `fetch_messages` (lines 290-293): drop the first fetched
entry when its ID equals a non-sentinel `actual_start_id`, to avoid
re-delivering the cursor entry on an inclusive `XRANGE` read. -/
def dropDupHead (actual : Nat) : List (Nat × String) → List (Nat × String)
  | m :: rest => if actual ≠ STREAM_START_ID ∧ m.1 = actual then rest else m :: rest
  | [] => []

/-- Model of `fetch_messages`.  `streamExists` is the `redis.exists` probe
(line 264: missing stream returns `([], start_id or START)`).  With
`block = false` the code uses `XRANGE min=actual_start` — entries with ID
`≥ actual_start`, limited to `count`; with `block = true` it uses `XREAD`
— entries with ID strictly `> actual_start`, limited to `count`.  The
dedup of lines 290-293 (`dropDupHead`) then applies; line 296 computes the
next cursor. -/
def fetch_messages (log : List (Nat × String)) (streamExists : Bool)
    (start_id : Option Nat) (count : Nat) (block : Bool) :
    List (Nat × String) × Nat :=
  if !streamExists then ([], start_id.getD STREAM_START_ID)
  else
    let actual := start_id.getD STREAM_START_ID
    let fetched :=
      if !block then (log.filter (fun e => actual ≤ e.1)).take count
      else (log.filter (fun e => actual < e.1)).take count
    let messages := dropDupHead actual fetched
    let next := ((messages.getLast?).map (·.1)).getD actual
    (messages, next)

/-! List-variant session: the `stream_generator` inside
`stream_thread_events` (agent_thread_controller.py, lines 161-339). -/

/-- Parsed view of one element of `agent_run:<thread>:responses` as the
generator reads it: `type` is `response.get("type")`, `status` is
`response.get("status")`, `json` is the `json.dumps(response)` string put on
the wire, and `dataCurrentState` is the `current_state` inside the nested
`data` payload (never read by the generator; the claims of the spec refer to
it). -/
structure ListEntry where
  type : String
  status : Option String
  json : String
  dataCurrentState : Option CurrentState
deriving DecidableEq, Repr

/-- The completion test at lines 193 and 279:
`response.get("type") == "status" and response.get("status") in
["completed", "failed", "stopped"]`. -/
def isCompletionStatus (e : ListEntry) : Bool :=
  e.type == "status" &&
    (e.status == some ("completed") || e.status == some ("failed") ||
      e.status == some ("stopped"))

/-- Wire shape of every frame the thread-mode generator yields:
`f"data: {json.dumps(...)}\n\n"` (lines 189, 201, 264, 275, 296, 302). -/
def dataFrame (json : String) : String :=
  "data: " ++ json ++ "\n\n"

/-- The synthetic terminal frame of line 201:
`json.dumps` of the dict with type `status` and status `completed`. -/
def syntheticCompletedFrame : String :=
  dataFrame ("\x7b\"type\": \"status\", \"status\": \"completed\"\x7d")

/-- Delivery loop shared by the initial replay (lines 188-196) and a tail
fetch (lines 274-282): yield each entry at its index, stop with
`terminate_stream = True` right after an entry passing `isCompletionStatus`.
Returns the delivered `(index, entry)` pairs in order and the terminate
flag. -/
def deliverLoop : List ListEntry → Nat → List (Nat × ListEntry) × Bool
  | [], _ => ([], false)
  | e :: rest, idx =>
    if isCompletionStatus e then ([(idx, e)], true)
    else
      let r := deliverLoop rest (idx + 1)
      ((idx, e) :: r.1, r.2)

/-- Initial `last_processed_index`:
`int(last_id) if last_id else -1` (line 169). -/
def initialLastProcessedIndex (lastId : Option Int) : Int :=
  lastId.getD (-1)

/-- Start of the replay slice (line 187):
`last_processed_index + 1 if last_processed_index >= 0 else 0`. -/
def replayStartIndex (lpi : Int) : Nat :=
  if 0 ≤ lpi then (lpi + 1).toNat else 0

/-- Result of the initial replay phase of the generator. -/
structure ReplayResult where
  delivered : List (Nat × ListEntry)
  terminate : Bool
deriving Repr

/-- Model of the initial replay (lines 181-201): slice the stored list from
`replayStartIndex`, deliver entries in order, and stop at the first
completion-status entry. -/
def streamGeneratorReplay (entries : List ListEntry) (lastId : Option Int) :
    ReplayResult :=
  let start := replayStartIndex (initialLastProcessedIndex lastId)
  let r := deliverLoop (entries.drop start) start
  ⟨r.1, r.2⟩

/-- Frames the generator yields before entering the live-tail phase
(lines 188-201): one `data:` frame per delivered entry, plus the synthetic
completed-status frame when a completion-status entry ended the replay. -/
def streamGeneratorInitialOutput (entries : List ListEntry)
    (lastId : Option Int) : List String :=
  let r := streamGeneratorReplay entries lastId
  (r.delivered.map (fun p => dataFrame p.2.json)) ++
    (if r.terminate then [syntheticCompletedFrame] else [])

/-- Model of one `new_response` tail fetch (lines 267-282): `LRANGE` from
`last_processed_index + 1` to the end, deliver in order, stop on a
completion-status entry.  Returns the delivered pairs, the new
`last_processed_index`, and the terminate flag.  `entries` is the full list
at fetch time and `lpi ≥ -1` in every reachable state. -/
def tailFetchStep (entries : List ListEntry) (lpi : Int) :
    List (Nat × ListEntry) × Int × Bool :=
  let start := (lpi + 1).toNat
  let r := deliverLoop (entries.drop start) start
  let newLpi := ((r.1.map (fun p => (p.1 : Int))).getLast?).getD lpi
  (r.1, newLpi, r.2)

/-! Legacy stream-variant session internals
(agent_event_stream_service.py, lines 375-809). -/

/-- The configuration fields of `StreamConfig` (lines 104-155) that the
session logic reads.  All durations are in the units the code uses:
`timeout_minutes` and `connection_max_duration_minutes` in minutes, the
intervals in seconds. -/
structure StreamConfig where
  timeout_minutes : Nat
  connection_max_duration_minutes : Nat
  keep_alive_interval : Nat
  message_queue_max_size : Nat
  connection_timeout_check_interval_seconds : Nat
deriving Repr

/-- Model of `asyncio.Queue.put_nowait`: raises `QueueFull` when the queue
has `maxsize > 0` and is at capacity, otherwise appends. -/
def putNowait (maxsize : Nat) (q : List SseEventMessage) (x : SseEventMessage) :
    Except Unit (List SseEventMessage) :=
  if 0 < maxsize ∧ maxsize ≤ q.length then Except.error ()
  else Except.ok (q ++ [x])

/-- One keep-alive tick of `_keep_alive_timer` (lines 483-504): build the
keep-alive event and `put_nowait` it, swallowing `QueueFull` (lines 492-497),
so a full queue leaves the queue unchanged. -/
def keepAliveTick (cfg : StreamConfig) (q : List SseEventMessage)
    (ev : SseEventMessage) : List SseEventMessage :=
  match putNowait cfg.message_queue_max_size q ev with
  | Except.ok q2 => q2
  | Except.error _ => q

/-- Model of `TimeoutManager` (lines 375-443); times are `Nat` seconds. -/
structure TimeoutManager where
  connection_start_time : Nat
  last_business_message_time : Nat
  last_any_message_time : Nat
deriving DecidableEq, Repr

/-- Constructor semantics (lines 384-390): both message clocks start at the
connection start time. -/
def TimeoutManager.create (now : Nat) : TimeoutManager :=
  ⟨now, now, now⟩

/-- Model of `update_business_message_time` (lines 392-396). -/
def TimeoutManager.update_business_message_time (tm : TimeoutManager)
    (now : Nat) : TimeoutManager :=
  { tm with last_business_message_time := now, last_any_message_time := now }

/-- Model of `update_any_message_time` (lines 398-400). -/
def TimeoutManager.update_any_message_time (tm : TimeoutManager)
    (now : Nat) : TimeoutManager :=
  { tm with last_any_message_time := now }

/-- Model of `check_business_timeout` (lines 402-416): true exactly when the
checker raises `StreamTimeoutException`, i.e. when
`now - last_business_message_time > timeout_minutes * 60`. -/
def TimeoutManager.check_business_timeout (tm : TimeoutManager)
    (cfg : StreamConfig) (now : Nat) : Bool :=
  decide (tm.last_business_message_time + cfg.timeout_minutes * 60 < now)

/-- Model of `check_connection_timeout` (lines 418-432). -/
def TimeoutManager.check_connection_timeout (tm : TimeoutManager)
    (cfg : StreamConfig) (now : Nat) : Bool :=
  decide (tm.connection_start_time + cfg.connection_max_duration_minutes * 60 < now)

/-- Per-message body of `_redis_message_listener` (lines 591-606) for a
message that parses: update the business or any-message clock according to
`is_business_message`, then `put_nowait` into the queue, swallowing
`QueueFull` (lines 603-606) — the listener drops the message when the queue
is full.  Returns the updated timeout manager and queue. -/
def listenerHandleMessage (cfg : StreamConfig) (tm : TimeoutManager)
    (q : List SseEventMessage) (m : SseEventMessage) (now : Nat) :
    TimeoutManager × List SseEventMessage :=
  let tm := if m.is_business_message then tm.update_business_message_time now
            else tm.update_any_message_time now
  match putNowait cfg.message_queue_max_size q m with
  | Except.ok q2 => (tm, q2)
  | Except.error _ => (tm, q)

/-- Exceptions of the session (lines 23-50), by kind. -/
inductive StreamExc where
  | timeout
  | clientDisconnected
  | redis
deriving DecidableEq, Repr

/-- One wake-up of the main yield loop of `stream_sse_events`
(lines 746-790): `asyncio.wait` races the `message_queue.get()` task against
the `request.is_disconnected()` task and nothing else; a completed message
task yields the frame, a disconnect raises. -/
inductive MainLoopEvent where
  | message (m : SseEventMessage)
  | clientDisconnected
deriving Repr

/-- Model of the main yield loop (lines 746-790) over a trace of wake-ups:
each dequeued message is formatted and yielded with no inspection of its
payload; a detected disconnect raises `StreamClientDisconnectedException`.
The loop has no other exit: in particular it never reacts to the content
(`current_state`) of a dequeued event.  Returns the yielded frames and the
exception that ended the loop, `none` while it is still running. -/
def mainLoopRun : List MainLoopEvent → List String × Option StreamExc
  | [] => ([], none)
  | MainLoopEvent.message m :: rest =>
    let r := mainLoopRun rest
    (m.format_as_sse :: r.1, r.2)
  | MainLoopEvent.clientDisconnected :: _ =>
    ([], some StreamExc.clientDisconnected)

/-- Model of `EventMessageFactory.create_keep_alive_event` (lines 318-324):
a KEEP_ALIVE message whose payload serializes to `{"time":"<iso>"}`. -/
def create_keep_alive_event (timeIso : String) : SseEventMessage :=
  ⟨Sum.inl EventStreamSseEvent.keep_alive,
    "\x7b\"time\":\"" ++ timeIso ++ "\"\x7d", none⟩

/-! Operational model of the TAIL phase of `stream_sse_events`
(lines 731-801).  The three background activities are created with
`asyncio.create_task` (lines 734-744).  In asyncio an exception raised
inside a Task is stored in the Task object and surfaces in another coroutine
only when that coroutine awaits the task or retrieves its result; the main
yield loop awaits only the fresh `message_task` and `disconnect_task`
(lines 750-757), and the three background tasks are awaited only in the
`finally` block via `asyncio.gather(..., return_exceptions=True)`
(lines 792-799), which converts their exceptions into values.  The state
therefore keeps the exception stored in the timeout-checker task
(`checkerExc`) separate from the exception that actually reaches the
generator (`sessionExc`). -/

/-- State of one connection during the TAIL phase. -/
structure TailState where
  now : Nat
  tm : TimeoutManager
  queue : List SseEventMessage
  yielded : List String
  checkerExc : Option StreamExc
  sessionExc : Option StreamExc
deriving Repr

/-- Scheduler events of the TAIL phase, one per suspension point of the
cooperating tasks. -/
inductive TailAction where
  | sleep (dt : Nat)
  | keepAlive
  | timeoutCheck
  | listenerMessage (m : SseEventMessage)
  | mainDequeue
deriving Repr

/-- One scheduler step of the TAIL phase, for a client that stays
connected.  `timeoutCheck` mirrors one iteration of `_timeout_checker`
(lines 523-533): when a timeout has been exceeded the checker raises
`StreamTimeoutException` — recorded in `checkerExc`, ending the loop of that task — but `sessionExc` is unchanged, because the main loop never awaits
the checker task (see the section comment).  `mainDequeue` mirrors one
iteration of the main yield loop (lines 748-778): pop the queue head and
yield its formatted frame; an empty queue would block, modelled as a
no-op.  Every step after a session-ending exception is a no-op. -/
def tailStep (cfg : StreamConfig) (s : TailState) : TailAction → TailState
  | TailAction.sleep dt => { s with now := s.now + dt }
  | TailAction.keepAlive =>
    if s.sessionExc.isSome then s
    else { s with queue := keepAliveTick cfg s.queue (create_keep_alive_event (toString s.now)) }
  | TailAction.timeoutCheck =>
    if s.sessionExc.isSome ∨ s.checkerExc.isSome then s
    else if s.tm.check_business_timeout cfg s.now then
      { s with checkerExc := some StreamExc.timeout }
    else if s.tm.check_connection_timeout cfg s.now then
      { s with checkerExc := some StreamExc.timeout }
    else s
  | TailAction.listenerMessage m =>
    if s.sessionExc.isSome then s
    else
      let r := listenerHandleMessage cfg s.tm s.queue m s.now
      { s with tm := r.1, queue := r.2 }
  | TailAction.mainDequeue =>
    if s.sessionExc.isSome then s
    else
      match s.queue with
      | [] => s
      | m :: rest =>
        { s with queue := rest, yielded := s.yielded ++ [m.format_as_sse] }

/-- Run a whole scheduler trace of the TAIL phase. -/
def tailRun (cfg : StreamConfig) (s : TailState) (acts : List TailAction) :
    TailState :=
  acts.foldl (tailStep cfg) s

/-! Thread registry: `AgentThreadService.validate_thread`
(agent_thread_service.py, lines 132-154) and the gates in
`agent_thread_controller.py` (lines 101-102 and 156-158). -/

/-- Enum `ThreadStatus` in `backend/common/type/thread.py`. -/
inductive ThreadStatus where
  | active
  | inactive
  | archived
deriving DecidableEq, Repr

/-- Model of `ThreadMetadata` (common/type/thread.py, lines 54-62); the
free-form `metadata` map is not read by any embedded operation and is
omitted. -/
structure ThreadMetadata where
  thread_id : String
  status : ThreadStatus
  created_at : String
  updated_at : String
  run_count : Nat
  last_run_id : Option String
deriving DecidableEq, Repr

/-- Outcome of a call into the Redis backend: a value, or a raised
exception. -/
inductive RedisResult (α : Type) where
  | ok (v : α)
  | err (msg : String)
deriving DecidableEq, Repr

/-- Model of `AgentThreadService.validate_thread` (lines 132-154).
`getResult` is the outcome of `redis.get(metadata_key)` (`.ok none` when
the key is absent) and `parse` the outcome of
`ThreadMetadata.model_validate_json`.  The whole body runs under
`try/except Exception: return False`, so a raised backend or parse error
yields `false`; `if not metadata_json` makes the empty string falsy too. -/
def validate_thread (getResult : RedisResult (Option String))
    (parse : String → RedisResult ThreadMetadata) : Bool :=
  match getResult with
  | RedisResult.err _ => false
  | RedisResult.ok none => false
  | RedisResult.ok (some s) =>
    if s = "" then false
    else
      match parse s with
      | RedisResult.err _ => false
      | RedisResult.ok md => md.status == ThreadStatus.active

/-- Validation gate of `POST /{thread_id}/execute` (controller lines
101-102): 404 when `validate_thread` is false, otherwise the status of the
rest of the handler (`restStatus`). -/
def execute_endpoint_status (getResult : RedisResult (Option String))
    (parse : String → RedisResult ThreadMetadata) (restStatus : Nat) : Nat :=
  if validate_thread getResult parse then restStatus else 404

/-- Validation gate of `GET /{thread_id}/stream` (controller lines
156-158): 404 when `validate_thread` is false, otherwise the status of the
streaming response (`restStatus`). -/
def stream_endpoint_status (getResult : RedisResult (Option String))
    (parse : String → RedisResult ThreadMetadata) (restStatus : Nat) : Nat :=
  if validate_thread getResult parse then restStatus else 404

/-! Concrete instances used in the closed theorems below. -/

/-- String value of either side of an `event_type` (the two branches of
`format_as_sse`). -/
def eventTypeString : EventStreamSseEvent ⊕ String → String
  | Sum.inl e => e.value
  | Sum.inr s => s

/-- Concrete worker event with an unset `create_at` and `modify_at`. -/
def sampleEvent : AgentExecuteData :=
  ⟨"u1", none, none, CurrentState.processing, none, none, false,
    "assistant_response", none⟩

/-- Concrete worker event that already carries a `modify_at`. -/
def sampleEventWithModify : AgentExecuteData :=
  ⟨"u1", none, some ("M0"), CurrentState.processing, none, none, false,
    "assistant_response", none⟩

/-- Concrete stored list entry: a business event whose payload carries a
terminal `current_state`. -/
def sampleTerminalEntry : ListEntry :=
  ⟨"task_agent_execute", none, "J1", some CurrentState.complete⟩

/-- Concrete stored list entry: a non-terminal business event. -/
def sampleBusinessEntry : ListEntry :=
  ⟨"task_agent_execute", none, "J2", none⟩

/-- Concrete queued message: a business event whose payload carries a
terminal `current_state`. -/
def sampleTerminalMsg : SseEventMessage :=
  ⟨Sum.inr ("task_agent_execute"), "J1", some CurrentState.complete⟩

/-- Concrete queued message: a non-terminal business event. -/
def sampleBusinessMsg : SseEventMessage :=
  ⟨Sum.inr ("task_agent_execute"), "J2", none⟩

/-- Configuration with a message queue of capacity one. -/
def tinyQueueConfig : StreamConfig := ⟨2, 30, 15, 1, 30⟩

/-- Configuration with `business_timeout_minutes = 2`, used for the
timeout-propagation trace. -/
def timeoutTraceConfig : StreamConfig := ⟨2, 30, 15, 100, 30⟩

/-- TAIL-phase start state at t = 1000 s: fresh timeout manager, empty
queue, no exceptions anywhere. -/
def timeoutTraceStart : TailState :=
  ⟨1000, TimeoutManager.create 1000, [], [], none, none⟩

/-- Scheduler trace: 200 s pass with no business message (exceeding the
120 s business ceiling), the timeout checker ticks, a keep-alive ticks, the
main loop dequeues. -/
def timeoutTrace : List TailAction :=
  [TailAction.sleep 200, TailAction.timeoutCheck, TailAction.keepAlive,
    TailAction.mainDequeue]

/-- A frame of the shape the thread-mode generator produces: a bare
`data:` line followed by the blank line, with no `event:` line. -/
def isDataFrame (f : String) : Prop :=
  ∃ j, f = dataFrame j

/-- Concrete active thread metadata record. -/
def sampleMetadata : ThreadMetadata :=
  ⟨"t1", ThreadStatus.active, "2025-01-01", "2025-01-01", 0, none⟩

end EventStream

namespace EventStream

/-! Helper lemmas about the publisher embedding. -/

/-- Filling timestamps never changes the UUID. -/
theorem fillTimestamps_uuid (d : AgentExecuteData) (now : String) :
    (fillTimestamps d now).uuid = d.uuid := by
  simp only [fillTimestamps]
  split_ifs <;> rfl

/-- Value of `create_at` after the timestamp fill. -/
theorem fillTimestamps_create_at (d : AgentExecuteData) (now : String) :
    (fillTimestamps d now).create_at =
      if d.create_at = none then some now else d.create_at := by
  simp only [fillTimestamps]
  split_ifs <;> simp_all

/-- Value of `modify_at` after the timestamp fill. -/
theorem fillTimestamps_modify_at (d : AgentExecuteData) (now : String) :
    (fillTimestamps d now).modify_at =
      if d.modify_at = none then some now else d.modify_at := by
  simp only [fillTimestamps]
  split_ifs <;> simp_all

/-- The event object handed in by the caller is, after a publish, the
timestamp-filled one. -/
theorem publish_to_thread_data (log : List RedisListEntry)
    (data : AgentExecuteData) (now : String) :
    (publish_to_thread log data now).data = fillTimestamps data now := by
  unfold publish_to_thread
  simp only
  split <;> rfl

/-- A found UUID index lies inside the list. -/
theorem uuidIndex_lt_length {log : List RedisListEntry} {u : String} {i : Nat}
    (h : uuidIndex log u = some i) : i < log.length := by
  induction log generalizing i with
  | nil => simp [uuidIndex] at h
  | cons e rest ih =>
    simp only [uuidIndex] at h
    split at h
    · cases h
      simp
    · cases hrec : uuidIndex rest u with
      | none => rw [hrec] at h; simp at h
      | some j =>
        rw [hrec] at h
        simp only [Option.map_some'] at h
        cases h
        simpa using ih hrec

/-- Overwriting the found index with an entry of the same UUID keeps the
scan result. -/
theorem uuidIndex_set_self {log : List RedisListEntry} {u : String} {i : Nat}
    {e : RedisListEntry} (h : uuidIndex log u = some i)
    (he : e.uuidOf = some u) : uuidIndex (log.set i e) u = some i := by
  induction log generalizing i with
  | nil => simp [uuidIndex] at h
  | cons a rest ih =>
    simp only [uuidIndex] at h
    split at h
    · cases h
      simp [List.set, uuidIndex, he]
    · cases hrec : uuidIndex rest u with
      | none => rw [hrec] at h; simp at h
      | some j =>
        rw [hrec] at h
        simp only [Option.map_some'] at h
        cases h
        simp only [List.set, uuidIndex]
        rw [if_neg (by assumption), ih hrec]
        rfl

/-- Appending an entry with a fresh UUID makes the scan find it last. -/
theorem uuidIndex_append_none {log : List RedisListEntry} {u : String}
    {e : RedisListEntry} (h : uuidIndex log u = none)
    (he : e.uuidOf = some u) : uuidIndex (log ++ [e]) u = some log.length := by
  induction log with
  | nil => simp [uuidIndex, he]
  | cons a rest ih =>
    simp only [uuidIndex] at h ⊢
    split at h
    · simp at h
    · rw [if_neg (by assumption)]
      cases hrec : uuidIndex rest u with
      | none => simp [ih hrec, List.length]
      | some j => rw [hrec] at h; simp at h

/-! Helper lemmas about the list-variant delivery loop. -/

/-- Shape of a delivery-loop run: a terminating run delivers a unique final
completion-status entry; a non-terminating run delivers none. -/
theorem deliverLoop_structure (es : List ListEntry) :
    ∀ idx : Nat,
      ((deliverLoop es idx).2 = true →
        ∃ ps e, (deliverLoop es idx).1 = ps ++ [e] ∧ isCompletionStatus e.2 = true ∧
          ∀ p ∈ ps, isCompletionStatus p.2 = false) ∧
      ((deliverLoop es idx).2 = false →
        ∀ p ∈ (deliverLoop es idx).1, isCompletionStatus p.2 = false) := by
  induction es with
  | nil => intro idx; simp [deliverLoop]
  | cons e rest ih =>
    intro idx
    cases hc : isCompletionStatus e with
    | true =>
      constructor
      · intro _
        exact ⟨[], (idx, e), by simp [deliverLoop, hc], hc, by simp⟩
      · intro hf
        simp [deliverLoop, hc] at hf
    | false =>
      constructor
      · intro ht
        simp only [deliverLoop, hc, Bool.false_eq_true, if_false] at ht ⊢
        obtain ⟨ps, q, heq, hq, hps⟩ := (ih (idx + 1)).1 ht
        refine ⟨(idx, e) :: ps, q, by simp [heq], hq, ?_⟩
        intro p hp
        rcases List.mem_cons.mp hp with rfl | hp
        · exact hc
        · exact hps p hp
      · intro hf
        simp only [deliverLoop, hc, Bool.false_eq_true, if_false] at hf ⊢
        intro p hp
        rcases List.mem_cons.mp hp with rfl | hp
        · exact hc
        · exact (ih (idx + 1)).2 hf p hp

/-- Every position delivered by the loop is at or after its start index. -/
theorem deliverLoop_start_le (es : List ListEntry) :
    ∀ idx, ∀ p ∈ (deliverLoop es idx).1, idx ≤ p.1 := by
  induction es with
  | nil => intro idx p hp; simp [deliverLoop] at hp
  | cons e rest ih =>
    intro idx p hp
    cases hc : isCompletionStatus e with
    | true =>
      simp [deliverLoop, hc] at hp
      simp [hp]
    | false =>
      simp only [deliverLoop, hc, Bool.false_eq_true, if_false] at hp
      rcases List.mem_cons.mp hp with rfl | hp
      · exact Nat.le_refl idx
      · exact Nat.le_of_succ_le (ih (idx + 1) p hp)

/-! Helper lemmas about the stream-variant reader. -/

/-- On a strictly ID-sorted fetch whose entries all lie at or after the
cursor (and strictly after it when the cursor is the sentinel 0), the
dedup step leaves only entries strictly after the cursor. -/
theorem mem_dropDupHead_strict (fetched : List (Nat × String)) (c : Nat)
    (hsorted : List.Pairwise (fun a b => a.1 < b.1) fetched)
    (hge : ∀ e ∈ fetched, c ≤ e.1)
    (hzero : c = 0 → ∀ e ∈ fetched, 0 < e.1) :
    ∀ p ∈ dropDupHead c fetched, c < p.1 := by
  intro p hp
  cases fetched with
  | nil => simp [dropDupHead] at hp
  | cons m rest =>
    by_cases hcond : c ≠ STREAM_START_ID ∧ m.1 = c
    · rw [dropDupHead, if_pos hcond] at hp
      have hlt := (List.pairwise_cons.mp hsorted).1 p hp
      omega
    · rw [dropDupHead, if_neg hcond] at hp
      by_cases hc0 : c = 0
      · have := hzero hc0 p hp
        omega
      · have hm : m.1 ≠ c := fun h => hcond ⟨by simpa [STREAM_START_ID] using hc0, h⟩
        rcases List.mem_cons.mp hp with rfl | hp2
        · have := hge p (List.mem_cons_self ..)
          omega
        · have h1 := (List.pairwise_cons.mp hsorted).1 p hp2
          have h2 := hge m (List.mem_cons_self ..)
          omega

/-- Stream variant of resume: with server-assigned monotonic IDs (strictly
sorted, never the sentinel 0), every entry returned for cursor `c` has ID
strictly greater than `c`, on both the XRANGE and the XREAD path. -/
theorem fetch_messages_strict (log : List (Nat × String)) (ex : Bool)
    (c count : Nat) (block : Bool)
    (hsort : List.Pairwise (fun a b => a.1 < b.1) log)
    (hpos : ∀ e ∈ log, 0 < e.1) :
    ∀ p ∈ (fetch_messages log ex (some c) count block).1, c < p.1 := by
  cases ex with
  | false => intro p hp; simp [fetch_messages] at hp
  | true =>
    intro p hp
    simp only [fetch_messages, Bool.not_true, Option.getD_some] at hp
    rw [if_neg (by simp)] at hp
    cases block with
    | false =>
      have hfil : ∀ e ∈ (log.filter (fun e => decide (c ≤ e.1))).take count, c ≤ e.1 := by
        intro e he
        have h1 := List.mem_of_mem_take he
        have h2 := (List.mem_filter.mp h1).2
        simpa using h2
      have hsub : ((log.filter (fun e => decide (c ≤ e.1))).take count).Sublist log :=
        (List.take_sublist ..).trans (List.filter_sublist _)
      refine mem_dropDupHead_strict _ c (hsort.sublist hsub) hfil ?_ p ?_
      · intro h0 e he
        exact hpos e (hsub.mem he)
      · simpa using hp
    | true =>
      have hfil : ∀ e ∈ (log.filter (fun e => decide (c < e.1))).take count, c ≤ e.1 := by
        intro e he
        have h1 := List.mem_of_mem_take he
        have h2 := (List.mem_filter.mp h1).2
        have h3 : c < e.1 := by simpa using h2
        omega
      have hsub : ((log.filter (fun e => decide (c < e.1))).take count).Sublist log :=
        (List.take_sublist ..).trans (List.filter_sublist _)
      refine mem_dropDupHead_strict _ c (hsort.sublist hsub) hfil ?_ p ?_
      · intro h0 e he
        exact hpos e (hsub.mem he)
      · simpa using hp

/-- List variant of resume: the initial replay for cursor `c` delivers only
positions strictly greater than `c`. -/
theorem replay_strict (entries : List ListEntry) (c : Int) :
    ∀ p ∈ (streamGeneratorReplay entries (some c)).delivered, c < (p.1 : Int) := by
  intro p hp
  have hle := deliverLoop_start_le
    (entries.drop (replayStartIndex (initialLastProcessedIndex (some c))))
    (replayStartIndex (initialLastProcessedIndex (some c))) p hp
  simp only [initialLastProcessedIndex, Option.getD_some] at hle
  by_cases hc : (0 : Int) ≤ c
  · rw [replayStartIndex, if_pos hc] at hle
    omega
  · rw [replayStartIndex, if_neg hc] at hle
    omega

/-- List variant of resume, live-tail invariant: a tail fetch at
`last_processed_index` ≥ the cursor delivers only positions strictly
greater than the cursor and never moves `last_processed_index` back. -/
theorem tail_step_strict (entries : List ListEntry) (lpi c : Int)
    (h1 : -1 ≤ lpi) (h2 : c ≤ lpi) :
    (∀ p ∈ (tailFetchStep entries lpi).1, c < (p.1 : Int)) ∧
    lpi ≤ (tailFetchStep entries lpi).2.1 := by
  constructor
  · intro p hp
    have hle := deliverLoop_start_le (entries.drop (lpi + 1).toNat) (lpi + 1).toNat p hp
    omega
  · simp only [tailFetchStep]
    cases hl : ((deliverLoop (entries.drop (lpi + 1).toNat) (lpi + 1).toNat).1.map
        (fun p => (p.1 : Int))).getLast? with
    | none => simp [hl]
    | some x =>
      have hx := List.mem_of_mem_getLast? hl
      simp only [List.mem_map] at hx
      obtain ⟨p, hp, rfl⟩ := hx
      have hle := deliverLoop_start_le (entries.drop (lpi + 1).toNat) (lpi + 1).toNat p hp
      simp only [hl, Option.getD_some]
      omega

end EventStream

namespace EventStream

/-! Claim theorems. -/

/-- Claim C1 (counterexample): the claim fails as stated.  In the list
variant, after the delivered business event whose payload has terminal
`current_state = complete` (position 0), the session yields another
business frame (not a `status` frame) and does not terminate; in the
legacy stream variant, the main loop likewise yields a further business
frame after the terminal event and keeps running. -/
theorem session_continues_after_terminal_event :
    (streamGeneratorReplay [sampleTerminalEntry, sampleBusinessEntry] none).delivered =
      [(0, sampleTerminalEntry), (1, sampleBusinessEntry)] ∧
    (streamGeneratorReplay [sampleTerminalEntry, sampleBusinessEntry] none).terminate = false ∧
    streamGeneratorInitialOutput [sampleTerminalEntry, sampleBusinessEntry] none =
      [dataFrame ("J1"), dataFrame ("J2")] ∧
    sampleTerminalEntry.dataCurrentState = some CurrentState.complete ∧
    sampleBusinessEntry.type ≠ "status" ∧
    mainLoopRun [MainLoopEvent.message sampleTerminalMsg,
        MainLoopEvent.message sampleBusinessMsg] =
      (["event: task_agent_execute\ndata: J1\n\n",
        "event: task_agent_execute\ndata: J2\n\n"], none) ∧
    sampleTerminalMsg.dataCurrentState = some CurrentState.complete := by
  refine ⟨rfl, rfl, rfl, rfl, by decide, rfl, rfl⟩

/-- Claim C1 (amended): no session inspects the `current_state` of a
delivered business event.  The legacy main loop yields every dequeued message and
never terminates in response to a delivered event; the list-variant replay
terminates exactly on delivering a stored entry of type `status` with
status in completed/failed/stopped, and then yields exactly one more frame,
the synthetic completed-status frame. -/
theorem session_end_only_on_status_entry :
    (∀ msgs : List SseEventMessage,
      mainLoopRun (msgs.map MainLoopEvent.message) =
        (msgs.map SseEventMessage.format_as_sse, none)) ∧
    (∀ (entries : List ListEntry) (lastId : Option Int),
      ((streamGeneratorReplay entries lastId).terminate = true →
        ∃ ps e, (streamGeneratorReplay entries lastId).delivered = ps ++ [e] ∧
          isCompletionStatus e.2 = true ∧
          (∀ p ∈ ps, isCompletionStatus p.2 = false) ∧
          streamGeneratorInitialOutput entries lastId =
            ((ps ++ [e]).map (fun p => dataFrame p.2.json)) ++ [syntheticCompletedFrame]) ∧
      ((streamGeneratorReplay entries lastId).terminate = false →
        streamGeneratorInitialOutput entries lastId =
          (streamGeneratorReplay entries lastId).delivered.map (fun p => dataFrame p.2.json) ∧
        ∀ p ∈ (streamGeneratorReplay entries lastId).delivered,
          isCompletionStatus p.2 = false)) := by
  constructor
  · intro msgs
    induction msgs with
    | nil => rfl
    | cons m rest ih => simp [mainLoopRun, ih]
  · intro entries lastId
    constructor
    · intro ht
      have hterm : (deliverLoop (entries.drop (replayStartIndex
          (initialLastProcessedIndex lastId))) (replayStartIndex
          (initialLastProcessedIndex lastId))).2 = true := ht
      obtain ⟨ps, q, heq, hq, hps⟩ := (deliverLoop_structure _ _).1 hterm
      refine ⟨ps, q, heq, hq, hps, ?_⟩
      simp only [streamGeneratorInitialOutput, streamGeneratorReplay]
      simp [heq, hterm]
    · intro hf
      have hterm : (deliverLoop (entries.drop (replayStartIndex
          (initialLastProcessedIndex lastId))) (replayStartIndex
          (initialLastProcessedIndex lastId))).2 = false := hf
      constructor
      · simp only [streamGeneratorInitialOutput, streamGeneratorReplay]
        simp [hterm]
      · exact fun p hp => (deliverLoop_structure _ _).2 hterm p hp

/-- Claim C1 (witness): the amended theorem applied to a one-entry
non-terminating replay. -/
theorem session_end_only_on_status_entry_witness :
    streamGeneratorInitialOutput [sampleBusinessEntry] none = [dataFrame ("J2")] :=
  (((session_end_only_on_status_entry).2 [sampleBusinessEntry] none).2 rfl).1.trans rfl

/-- Claim C2: at the failing trace — 200 s of TAIL phase with no business
message under a 2-minute business ceiling, client connected — the timeout
checker raises `StreamTimeoutException` inside its own task
(`checkerExc`), but no exception reaches the generator (`sessionExc` stays
`none`) and the session still yields the subsequently queued keep-alive
frame: the raised timeout never aborts the main yield loop. -/
theorem business_timeout_never_reaches_main_loop :
    TimeoutManager.check_business_timeout (TimeoutManager.create 1000)
      timeoutTraceConfig 1200 = true ∧
    (tailRun timeoutTraceConfig timeoutTraceStart timeoutTrace).checkerExc =
      some StreamExc.timeout ∧
    (tailRun timeoutTraceConfig timeoutTraceStart timeoutTrace).sessionExc = none ∧
    (tailRun timeoutTraceConfig timeoutTraceStart timeoutTrace).yielded =
      [(create_keep_alive_event ("1200")).format_as_sse] := by
  refine ⟨by decide, by decide, by decide, rfl⟩

/-- Claim C3 (counterexample): with a full in-process queue (capacity 1,
already holding a keep-alive), the Redis listener does not block on a
tailed business event — it drops the event on the floor: the resulting
queue is unchanged and the event is never enqueued. -/
theorem reader_drops_message_on_full_queue :
    (listenerHandleMessage tinyQueueConfig (TimeoutManager.create 0)
        [create_keep_alive_event ("T0")] sampleBusinessMsg 100).2 =
      [create_keep_alive_event ("T0")] ∧
    sampleBusinessMsg ∉ (listenerHandleMessage tinyQueueConfig (TimeoutManager.create 0)
        [create_keep_alive_event ("T0")] sampleBusinessMsg 100).2 := by
  refine ⟨by decide, by decide⟩

/-- Claim C3 (amended): on a full queue both producers drop without
raising — the keep-alive ticker and the Redis listener each use
`put_nowait` and swallow `QueueFull`; with room, both append. -/
theorem queue_full_drop_behavior (cfg : StreamConfig) (tm : TimeoutManager)
    (q : List SseEventMessage) (m ev : SseEventMessage) (now : Nat)
    (hpos : 0 < cfg.message_queue_max_size) :
    (cfg.message_queue_max_size ≤ q.length →
      keepAliveTick cfg q ev = q ∧
      (listenerHandleMessage cfg tm q m now).2 = q) ∧
    (q.length < cfg.message_queue_max_size →
      keepAliveTick cfg q ev = q ++ [ev] ∧
      (listenerHandleMessage cfg tm q m now).2 = q ++ [m]) := by
  constructor
  · intro hfull
    have hp : putNowait cfg.message_queue_max_size q ev = Except.error () := by
      simp [putNowait, hpos, hfull]
    have hp2 : putNowait cfg.message_queue_max_size q m = Except.error () := by
      simp [putNowait, hpos, hfull]
    constructor
    · simp [keepAliveTick, hp]
    · simp [listenerHandleMessage, hp2]
  · intro hroom
    have hp : putNowait cfg.message_queue_max_size q ev = Except.ok (q ++ [ev]) := by
      simp [putNowait, Nat.not_le_of_lt hroom]
    have hp2 : putNowait cfg.message_queue_max_size q m = Except.ok (q ++ [m]) := by
      simp [putNowait, Nat.not_le_of_lt hroom]
    constructor
    · simp [keepAliveTick, hp]
    · simp [listenerHandleMessage, hp2]

/-- Claim C3 (witness): the amended theorem at a concrete full queue. -/
theorem queue_full_drop_behavior_witness :
    keepAliveTick tinyQueueConfig [create_keep_alive_event ("T0")]
      (create_keep_alive_event ("T1")) = [create_keep_alive_event ("T0")] ∧
    (listenerHandleMessage tinyQueueConfig (TimeoutManager.create 0)
      [create_keep_alive_event ("T0")] sampleBusinessMsg 100).2 =
      [create_keep_alive_event ("T0")] :=
  (queue_full_drop_behavior tinyQueueConfig (TimeoutManager.create 0)
    [create_keep_alive_event ("T0")] sampleBusinessMsg
    (create_keep_alive_event ("T1")) 100 (by decide)).1 (by decide)

/-- Claim C4: a publish whose UUID already occupies (first) position `i`
overwrites in place at `i` — length unchanged, every other position
untouched, returned index `i`; a publish with a fresh UUID appends and
returns the new last position. -/
theorem publish_upsert_by_uuid (log : List RedisListEntry)
    (data : AgentExecuteData) (now : String) :
    (∀ i, uuidIndex log data.uuid = some i →
      (publish_to_thread log data now).log.length = log.length ∧
      (publish_to_thread log data now).index = i ∧
      (publish_to_thread log data now).log = log.set i (RedisListEntry.msg
        ⟨"task_agent_execute", (fillTimestamps data now).uuid, fillTimestamps data now, now⟩) ∧
      ∀ j, j ≠ i → (publish_to_thread log data now).log[j]? = log[j]?) ∧
    (uuidIndex log data.uuid = none →
      (publish_to_thread log data now).log = log ++ [RedisListEntry.msg
        ⟨"task_agent_execute", (fillTimestamps data now).uuid, fillTimestamps data now, now⟩] ∧
      (publish_to_thread log data now).index = log.length) := by
  constructor
  · intro i hi
    have hu : uuidIndex log (fillTimestamps data now).uuid = some i := by
      rw [fillTimestamps_uuid]; exact hi
    simp only [publish_to_thread, hu]
    refine ⟨by simp, by simp, by simp, ?_⟩
    intro j hj
    exact List.getElem?_set_ne (fun h => hj h.symm)
  · intro hn
    have hu : uuidIndex log (fillTimestamps data now).uuid = none := by
      rw [fillTimestamps_uuid]; exact hn
    simp only [publish_to_thread, hu]
    exact ⟨by simp, by simp⟩

/-- Claim C4 (witness): the theorem at a concrete colliding and a concrete
fresh publish. -/
theorem publish_upsert_by_uuid_witness :
    (publish_to_thread (publish_to_thread [] sampleEvent ("T1")).log sampleEvent ("T2")).index = 0 ∧
    (publish_to_thread [] sampleEvent ("T1")).index = 0 :=
  ⟨((publish_upsert_by_uuid (publish_to_thread [] sampleEvent ("T1")).log sampleEvent ("T2")).1
      0 (by decide)).2.1,
   ((publish_upsert_by_uuid [] sampleEvent ("T1")).2 (by decide)).2⟩

end EventStream

namespace EventStream

/-- Claim C5 (counterexample): publishing the same-UUID event twice (each
time with `create_at` unset, as a fresh worker-side object) stores
`create_at = "T2"` from the second publish — the overwrite replaces the
original `create_at = "T1"` instead of preserving it. -/
theorem overwrite_does_not_preserve_create_at :
    (publish_to_thread [] sampleEvent ("T1")).data.create_at = some ("T1") ∧
    (publish_to_thread (publish_to_thread [] sampleEvent ("T1")).log sampleEvent ("T2")).log =
      [RedisListEntry.msg ⟨"task_agent_execute", "u1",
        { sampleEvent with create_at := some ("T2"), modify_at := some ("T2") }, "T2"⟩] ∧
    ((some ("T2") : Option String) ≠ some ("T1")) := by
  refine ⟨by decide, by decide, by decide⟩

/-- Claim C5 (amended): publishing `e` then `e2` with equal UUIDs leaves
the log length unchanged, overwrites at the same position, and stores `e2`
after its own timestamp fill — in particular the stored `create_at` comes
from `e2` itself (set to the second publish time when unset), not
preserved from the first publish of `e`. -/
theorem overwrite_stores_second_event_timestamps (log : List RedisListEntry)
    (e e2 : AgentExecuteData) (t1 t2 : String) (h : e2.uuid = e.uuid) :
    (publish_to_thread (publish_to_thread log e t1).log e2 t2).log.length =
      (publish_to_thread log e t1).log.length ∧
    (publish_to_thread (publish_to_thread log e t1).log e2 t2).index =
      (publish_to_thread log e t1).index ∧
    (publish_to_thread (publish_to_thread log e t1).log e2 t2).log[
        (publish_to_thread log e t1).index]? =
      some (RedisListEntry.msg ⟨"task_agent_execute", (fillTimestamps e2 t2).uuid,
        fillTimestamps e2 t2, t2⟩) ∧
    (fillTimestamps e2 t2).create_at =
      (if e2.create_at = none then some t2 else e2.create_at) := by
  have he1 : (fillTimestamps e t1).uuid = e.uuid := fillTimestamps_uuid e t1
  have he2 : (fillTimestamps e2 t2).uuid = e2.uuid := fillTimestamps_uuid e2 t2
  cases h1 : uuidIndex log e.uuid with
  | some i =>
    have hlt : i < log.length := uuidIndex_lt_length h1
    have hu1 : uuidIndex log (fillTimestamps e t1).uuid = some i := by rw [he1]; exact h1
    have hset : uuidIndex (log.set i (RedisListEntry.msg
        ⟨"task_agent_execute", (fillTimestamps e t1).uuid, fillTimestamps e t1, t1⟩))
        (fillTimestamps e2 t2).uuid = some i := by
      rw [he2, h]
      exact uuidIndex_set_self h1 (by simp [RedisListEntry.uuidOf, he1])
    simp only [publish_to_thread, hu1, hset]
    refine ⟨by simp, by simp, ?_, fillTimestamps_create_at e2 t2⟩
    exact List.getElem?_set_eq_of_lt _ (by simpa using hlt)
  | none =>
    have hu1 : uuidIndex log (fillTimestamps e t1).uuid = none := by rw [he1]; exact h1
    have happ : uuidIndex (log ++ [RedisListEntry.msg
        ⟨"task_agent_execute", (fillTimestamps e t1).uuid, fillTimestamps e t1, t1⟩])
        (fillTimestamps e2 t2).uuid = some log.length := by
      rw [he2, h]
      exact uuidIndex_append_none h1 (by simp [RedisListEntry.uuidOf, he1])
    simp only [publish_to_thread, hu1, happ]
    refine ⟨by simp, by simp, ?_, fillTimestamps_create_at e2 t2⟩
    exact List.getElem?_set_eq_of_lt _ (by simp)

/-- Claim C5 (witness): the amended theorem at two concrete same-UUID
events on an empty log. -/
theorem overwrite_stores_second_event_timestamps_witness :
    (publish_to_thread (publish_to_thread [] sampleEvent ("T1")).log
        sampleEventWithModify ("T2")).index =
      (publish_to_thread [] sampleEvent ("T1")).index ∧
    (fillTimestamps sampleEventWithModify ("T2")).create_at = some ("T2") :=
  ⟨(overwrite_stores_second_event_timestamps [] sampleEvent sampleEventWithModify
      ("T1") ("T2") rfl).2.1,
   ((overwrite_stores_second_event_timestamps [] sampleEvent sampleEventWithModify
      ("T1") ("T2") rfl).2.2.2).trans rfl⟩

/-- Claim C6 (counterexample): when the published event already carries
`modify_at = "M0"`, the publish leaves it untouched — `modify_at` is not
set to the current time "T2". -/
theorem modify_at_not_updated_when_present :
    (publish_to_thread [] sampleEventWithModify ("T2")).data.modify_at = some ("M0") ∧
    (publish_to_thread [] sampleEventWithModify ("T2")).log =
      [RedisListEntry.msg ⟨"task_agent_execute", "u1",
        { sampleEventWithModify with create_at := some ("T2") }, "T2"⟩] ∧
    ((some ("M0") : Option String) ≠ some ("T2")) := by
  refine ⟨by decide, by decide, by decide⟩

/-- Claim C6 (amended): `publish_to_thread` sets `modify_at` exactly the
way it sets `create_at` — only when the field is unset; an event that
already carries a `modify_at` keeps it. -/
theorem timestamps_set_only_when_unset (log : List RedisListEntry)
    (data : AgentExecuteData) (now : String) :
    (publish_to_thread log data now).data.modify_at =
      (if data.modify_at = none then some now else data.modify_at) ∧
    (publish_to_thread log data now).data.create_at =
      (if data.create_at = none then some now else data.create_at) := by
  rw [publish_to_thread_data]
  exact ⟨fillTimestamps_modify_at data now, fillTimestamps_create_at data now⟩

/-- Claim C7: resume never re-delivers at or before the cursor.  Stream
variant: on a strictly ID-sorted log with positive server IDs, every entry
returned for cursor `c` has ID strictly above `c` (XRANGE and XREAD
paths).  List variant: the initial replay for cursor `c` delivers only
positions strictly above `c`, and a live-tail fetch preserves the
invariant `cursor ≤ last_processed_index`, delivering only positions
strictly above it. -/
theorem no_delivery_at_or_before_cursor :
    (∀ (log : List (Nat × String)) (ex : Bool) (c count : Nat) (block : Bool),
      List.Pairwise (fun a b => a.1 < b.1) log →
      (∀ e ∈ log, 0 < e.1) →
      ∀ p ∈ (fetch_messages log ex (some c) count block).1, c < p.1) ∧
    (∀ (entries : List ListEntry) (c : Int),
      ∀ p ∈ (streamGeneratorReplay entries (some c)).delivered, c < (p.1 : Int)) ∧
    (∀ (entries : List ListEntry) (lpi c : Int), -1 ≤ lpi → c ≤ lpi →
      (∀ p ∈ (tailFetchStep entries lpi).1, c < (p.1 : Int)) ∧
      lpi ≤ (tailFetchStep entries lpi).2.1) :=
  ⟨fun log ex c count block hs hp => fetch_messages_strict log ex c count block hs hp,
   fun entries c => replay_strict entries c,
   fun entries lpi c h1 h2 => tail_step_strict entries lpi c h1 h2⟩

/-- Claim C7 (witness): the theorem at a concrete three-entry stream log
with cursor 2 (only ID 3 is returned) and a concrete list tail fetch at
`last_processed_index = 0`. -/
theorem no_delivery_at_or_before_cursor_witness :
    (fetch_messages [(1, "a"), (2, "b"), (3, "c")] true (some 2) 100 false).1 =
      [(3, "c")] ∧
    ((2 : Nat) < 3) ∧ ((0 : Int) < ((1 : Nat) : Int)) :=
  ⟨by decide,
   no_delivery_at_or_before_cursor.1 [(1, "a"), (2, "b"), (3, "c")] true 2 100 false
      (by decide) (by decide) (3, "c") (by decide),
   (no_delivery_at_or_before_cursor.2.2 [sampleBusinessEntry, sampleBusinessEntry] 0 0
      (by decide) (by decide)).1 (1, sampleBusinessEntry) (by decide)⟩

end EventStream

namespace EventStream

/-- Claim C8 (counterexample): the thread-mode stream endpoint yields the
frame `data: J2\n\n` for a stored business entry — a frame with no
`event:` line, which cannot be written as
`event: <type>\ndata: <json>\n\n` for any type and payload. -/
theorem thread_mode_frame_has_no_event_line :
    streamGeneratorInitialOutput [sampleBusinessEntry] none = [dataFrame ("J2")] ∧
    ¬ ∃ t j : String, dataFrame ("J2") = "event: " ++ t ++ "\ndata: " ++ j ++ "\n\n" := by
  constructor
  · rfl
  · rintro ⟨t, j, h⟩
    have h3 : dataFrame ("J2") = "data: J2\n\n" := rfl
    rw [h3] at h
    have h2 := congrArg String.data h
    simp [String.data] at h2

/-- Claim C8 (amended): only the legacy event-stream endpoint serializes
frames as `event: <type>\ndata: <json>\n\n` (via `format_as_sse`); every
frame the thread-mode generator yields is a bare `data: <json>\n\n` frame
with the type carried inside the JSON payload. -/
theorem frame_wire_shapes :
    (∀ m : SseEventMessage,
      m.format_as_sse =
        "event: " ++ eventTypeString m.event_type ++ "\ndata: " ++ m.dataJson ++ "\n\n") ∧
    (∀ (entries : List ListEntry) (lastId : Option Int) (f : String),
      f ∈ streamGeneratorInitialOutput entries lastId → isDataFrame f) := by
  constructor
  · intro m
    obtain ⟨et, dj, cs⟩ := m
    cases et <;> rfl
  · intro entries lastId f hf
    simp only [streamGeneratorInitialOutput, List.mem_append] at hf
    rcases hf with hf | hf
    · simp only [List.mem_map] at hf
      obtain ⟨p, _, rfl⟩ := hf
      exact ⟨p.2.json, rfl⟩
    · split at hf
      · simp only [List.mem_singleton] at hf
        exact ⟨"\x7b\"type\": \"status\", \"status\": \"completed\"\x7d", hf⟩
      · simp at hf

/-- Claim C8 (witness): the amended theorem at a concrete legacy message
and a concrete thread-mode frame. -/
theorem frame_wire_shapes_witness :
    sampleTerminalMsg.format_as_sse = "event: task_agent_execute\ndata: J1\n\n" ∧
    isDataFrame (dataFrame ("J2")) :=
  ⟨(frame_wire_shapes.1 sampleTerminalMsg).trans rfl,
   frame_wire_shapes.2 [sampleBusinessEntry] none (dataFrame ("J2"))
     (List.mem_singleton.mpr rfl)⟩

/-- Claim C9: `validate_thread` never raises — any backend or parse
failure yields `false`, and both guarded endpoints then answer 404, never
503; it answers `true` exactly when the metadata record exists (non-empty),
parses, and has status `active`. -/
theorem validate_thread_false_on_failure_and_404 :
    (∀ (parse : String → RedisResult ThreadMetadata) (msg : String) (restStatus : Nat),
      validate_thread (RedisResult.err msg) parse = false ∧
      execute_endpoint_status (RedisResult.err msg) parse restStatus = 404 ∧
      stream_endpoint_status (RedisResult.err msg) parse restStatus = 404) ∧
    (∀ (getResult : RedisResult (Option String))
        (parse : String → RedisResult ThreadMetadata),
      validate_thread getResult parse = true ↔
        ∃ s md, getResult = RedisResult.ok (some s) ∧ s ≠ "" ∧
          parse s = RedisResult.ok md ∧ md.status = ThreadStatus.active) := by
  constructor
  · intro parse msg restStatus
    exact ⟨rfl, rfl, rfl⟩
  · intro getResult parse
    constructor
    · intro hv
      match hg : getResult with
      | RedisResult.err m => simp [validate_thread] at hv
      | RedisResult.ok none => simp [validate_thread] at hv
      | RedisResult.ok (some s) =>
        simp only [validate_thread] at hv
        by_cases hs : s = ""
        · rw [if_pos hs] at hv; cases hv
        · rw [if_neg hs] at hv
          match hp : parse s with
          | RedisResult.err m => rw [hp] at hv; cases hv
          | RedisResult.ok md =>
            rw [hp] at hv
            refine ⟨s, md, rfl, hs, hp, ?_⟩
            simpa using hv
    · rintro ⟨s, md, rfl, hs, hp, hst⟩
      simp [validate_thread, hs, hp, hst]

/-- Claim C9 (witness): the theorem at a concrete backend failure and a
concrete healthy lookup. -/
theorem validate_thread_false_on_failure_and_404_witness :
    validate_thread (RedisResult.err ("connection refused"))
      (fun _ => RedisResult.ok sampleMetadata) = false ∧
    execute_endpoint_status (RedisResult.err ("connection refused"))
      (fun _ => RedisResult.ok sampleMetadata) 200 = 404 ∧
    stream_endpoint_status (RedisResult.err ("connection refused"))
      (fun _ => RedisResult.ok sampleMetadata) 200 = 404 ∧
    validate_thread (RedisResult.ok (some ("meta")))
      (fun _ => RedisResult.ok sampleMetadata) = true :=
  ⟨(validate_thread_false_on_failure_and_404.1 _ _ 200).1,
   (validate_thread_false_on_failure_and_404.1 _ _ 200).2.1,
   (validate_thread_false_on_failure_and_404.1 _ _ 200).2.2,
   (validate_thread_false_on_failure_and_404.2 _ _).mpr
     ⟨"meta", sampleMetadata, rfl, by decide, rfl, rfl⟩⟩

/-- Claim C10: a string-typed event is classified as a system message
exactly when its lower-cased type is one of waiting, keep_alive, error,
ping, heartbeat; and the listener resets the business-inactivity clock to
`now` exactly on business messages. -/
theorem string_event_system_classification :
    (∀ (s j : String) (cs : Option CurrentState),
      SseEventMessage.is_business_message ⟨Sum.inr s, j, cs⟩ = false ↔
        strLower s ∈ systemEventStrings) ∧
    (∀ (cfg : StreamConfig) (tm : TimeoutManager) (q : List SseEventMessage)
        (m : SseEventMessage) (now : Nat),
      (listenerHandleMessage cfg tm q m now).1.last_business_message_time =
        (if m.is_business_message then now else tm.last_business_message_time)) := by
  constructor
  · intro s j cs
    simp only [SseEventMessage.is_business_message, Bool.not_eq_false']
    rw [List.elem_iff]
  · intro cfg tm q m now
    by_cases hb : m.is_business_message
    · simp only [listenerHandleMessage, hb, if_true]
      cases putNowait cfg.message_queue_max_size q m <;>
        simp [TimeoutManager.update_business_message_time]
    · simp only [listenerHandleMessage, hb, if_false, Bool.false_eq_true]
      cases putNowait cfg.message_queue_max_size q m <;>
        simp [TimeoutManager.update_any_message_time, hb]

/-- Claim C10 (witness): the theorem at the concrete upper-case string
"KEEP_ALIVE" (classified as system via lower-casing) and at a concrete
business message resetting the clock to 100. -/
theorem string_event_system_classification_witness :
    SseEventMessage.is_business_message ⟨Sum.inr ("KEEP_ALIVE"), "", none⟩ = false ∧
    (listenerHandleMessage timeoutTraceConfig (TimeoutManager.create 0) []
      sampleBusinessMsg 100).1.last_business_message_time = 100 :=
  ⟨(string_event_system_classification.1 ("KEEP_ALIVE") ("") none).mpr (by decide),
   (string_event_system_classification.2 timeoutTraceConfig (TimeoutManager.create 0) []
      sampleBusinessMsg 100).trans (by decide)⟩

end EventStream
